import Mathlib

/-!
Shallow embedding of `src/src/main.rs` of the Blank utility (a macOS
blank-screen tool) and proofs of the behavioural claims about it.

The OS-facing parts (Cocoa colour handles, actual window creation, the winit
event loop plumbing) are opaque effects; the embedding keeps the decision
logic exactly as written in the source: which monitors get windows, how the
colour temperature state evolves, how the window list is mutated, how the
keyboard guards gate actions, and the exit check at the top of the event
loop closure.

Monitors (`winit::monitor::MonitorHandle`) are opaque handles compared by
equality; they are modelled as natural numbers.  `build_window` returns an
OS window whose only attributes the claims observe are its identifier and
the monitor it covers, so window construction is modelled by the monitor
the window is built for.
-/

namespace Blank

/-! ## Colour state (`struct Color`, `src/src/main.rs:100-163`)

The Rust struct also carries `color_id : cocoa::base::id`, an opaque OS
colour handle recomputed by `update()` from `temperature` and `dark`; the
handle itself is not representable, so the embedding keeps the two fields
that determine it. -/

structure Color where
  temperature : Nat
  dark : Bool
deriving Repr, DecidableEq

namespace Color

/-- `Color::new` (`src/src/main.rs:107-115`): temperature starts at 5500. -/
def new (dark : Bool) : Color :=
  { temperature := 5500, dark := dark }

/-- `Color::increase` (`src/src/main.rs:135-143`); returns the new state and
the Rust function's boolean result. -/
def increase (c : Color) : Color × Bool :=
  if c.temperature < 6600 then
    ({ c with temperature := c.temperature + 100 }, true)
  else
    (c, false)

/-- `Color::decrease` (`src/src/main.rs:150-158`). -/
def decrease (c : Color) : Color × Bool :=
  if c.temperature > 1500 then
    ({ c with temperature := c.temperature - 100 }, true)
  else
    (c, false)

/-- `Color::toggle` (`src/src/main.rs:145-148`). -/
def toggle (c : Color) : Color :=
  { c with dark := !c.dark }

end Color

/-! ## Exit check at the top of the event-loop closure
(`src/src/main.rs:205-218`)

```rust
if *control_flow == ControlFlow::Exit {
    if let Event::NewEvents(winit::event::StartCause::Poll) = event {
        if windows.is_empty() {
            if graceful {
                graceful = false;
            } else {
                abort loudly with message "Force exit"
            }
        } else {
            windows.clear();
        }
    }
}
```

The four inputs are whether `control_flow` is `Exit`, whether the event is
`NewEvents(StartCause::Poll)`, whether `windows` is empty, and the
`graceful` flag; the outcome is which branch runs. -/

inductive ExitCheckResult where
  /-- `graceful = false;` — the flag is consumed and the exit proceeds
  normally. -/
  | exitGracefully
  /-- the Rust code aborts loudly with message "Force exit". -/
  | forceAbort
  /-- `windows.clear();` — the window set is emptied, no abort. -/
  | clearWindows
  /-- the guard did not fire; the loop continues. -/
  | continueLoop
deriving Repr, DecidableEq

def exitCheck (exitRequested pollTick windowsEmpty graceful : Bool) :
    ExitCheckResult :=
  if exitRequested && pollTick then
    if windowsEmpty then
      if graceful then .exitGracefully else .forceAbort
    else
      .clearWindows
  else
    .continueLoop

/-! ## Monitors and the window set
(`list_monitors` `src/src/main.rs:28-40`, `choose_windows` 64-82,
`add_window` 84-98, `remove` 165-172) -/

/-- A window as observed by the claims: its OS-assigned identifier
(`Window::id`) and the monitor it is currently on
(`Window::current_monitor`, which can be `None`). -/
structure MWindow where
  id : Nat
  current_monitor : Option Nat
deriving Repr, DecidableEq

/-- Rust `Iterator::position(pred)`: index of the first element satisfying
the predicate, if any. -/
def position {α : Type _} (p : α → Bool) : List α → Option Nat
  | [] => none
  | x :: xs => if p x then some 0 else (position p xs).map (· + 1)

/-- Rust slice `swap(i, j)`.  The source only calls it with both indices in
bounds (Rust would abort otherwise), where it exchanges the elements at `i`
and `j`. -/
def listSwap {α : Type _} (l : List α) (i j : Nat) : List α :=
  if h : i < l.length ∧ j < l.length then
    (l.set i (l.get ⟨j, h.2⟩)).set j (l.get ⟨i, h.1⟩)
  else l

/-- `list_monitors` (`src/src/main.rs:28-40`): collect the available
monitors and, if the primary monitor occurs among them, swap it to the last
position. -/
def list_monitors (available : List Nat) (primary : Option Nat) : List Nat :=
  match primary with
  | none => available
  | some primary_monitor =>
    match position (fun monitor => monitor == primary_monitor) available with
    | none => available
    | some index => listSwap available index (available.length - 1)

/-- `choose_windows` (`src/src/main.rs:64-82`): build a window for each of
the first `count` monitors, where `count` keeps every monitor when `dark`
or fewer than two monitors exist and drops the last (primary) one
otherwise.  A built window is represented by the monitor it covers. -/
def choose_windows (available : List Nat) (primary : Option Nat)
    (dark : Bool) : List Nat :=
  let available_monitors := list_monitors available primary
  let count :=
    if dark || available_monitors.length < 2 then available_monitors.length
    else available_monitors.length - 1
  available_monitors.take count

/-- `add_window` (`src/src/main.rs:84-98`): find the first monitor such
that every open window's current monitor differs from it, and build a
window there.  The built window is represented by its monitor. -/
def add_window (available : List Nat) (primary : Option Nat)
    (current_windows : List MWindow) : Option Nat :=
  (list_monitors available primary).find? (fun monitor =>
    (current_windows.filterMap MWindow.current_monitor).all
      (fun opn => monitor != opn))

/-- Rust `Vec::swap_remove(i)`: replace the element at `i` by the last
element and drop the last slot.  The source only calls it with `i` in
bounds (it comes from `position`). -/
def swapRemove {α : Type _} (l : List α) (i : Nat) : List α :=
  if h : i < l.length then
    (l.set i (l.get ⟨l.length - 1, by omega⟩)).dropLast
  else l

/-- `remove` (`src/src/main.rs:165-172`): locate the window with the given
identifier and `swap_remove` it, reporting whether a removal occurred. -/
def remove (windows : List MWindow) (ident : Nat) : List MWindow × Bool :=
  match position (fun window => window.id == ident) windows with
  | some index => (swapRemove windows index, true)
  | none => (windows, false)

/-! ## Keyboard dispatch with key-repeat guards
(`src/src/main.rs:272-320`)

The `KeyboardInput` match arms.  The state the arms read and write is the
triple of `released_a`, `released_w`, `released_q` guards; the observable
the claim about key repeat needs is whether the `A`-pressed arm fired its
`add_window` attempt.  `logoModifiers` records whether
`current_modifiers == ModifiersState::LOGO` held when the event was
dispatched. -/

inductive KeyCode where
  | A
  | W
  | Q
  | Esc
  | unguarded
deriving Repr, DecidableEq

structure KeyEvent where
  key : KeyCode
  pressed : Bool
  logoModifiers : Bool
deriving Repr, DecidableEq

structure Guards where
  released_a : Bool
  released_w : Bool
  released_q : Bool
deriving Repr, DecidableEq

/-- One `KeyboardInput` dispatch (`src/src/main.rs:280-319`): the new guard
state, and whether the add-window action was attempted. -/
def keyStep (g : Guards) (e : KeyEvent) : Guards × Bool :=
  match e.key, e.pressed with
  | .Esc, false => (g, false)
  | .A, false => ({ g with released_a := true }, false)
  | .A, true =>
    if g.released_a && e.logoModifiers then
      ({ g with released_a := false }, true)
    else (g, false)
  | .W, false => ({ g with released_w := true }, false)
  | .W, true =>
    if g.released_w && e.logoModifiers then
      ({ g with released_w := false }, false)
    else (g, false)
  | .Q, false => ({ g with released_q := true }, false)
  | .Q, true =>
    if g.released_q && e.logoModifiers then
      ({ g with released_q := false }, false)
    else (g, false)
  | .Esc, true => (g, false)
  | .unguarded, _ => (g, false)

/-- Run a sequence of keyboard events through `keyStep`, counting how many
add-window attempts fired. -/
def runKeys (g : Guards) : List KeyEvent → Guards × Nat
  | [] => (g, 0)
  | e :: es =>
    let k := keyStep g e
    let r := runKeys k.1 es
    (r.1, (if k.2 then 1 else 0) + r.2)

/-! ## Startup argument parsing (`src/src/main.rs:180-187`) -/

/-- The argument match in `main`: `b`/`bright` select bright mode,
`d`/`dark`/absent select dark mode, anything else reports a usage error and
exits with status 1.  The error exit code is carried in the `error`
branch. -/
def parse_mode (arg : Option String) : Except Nat Bool :=
  match arg with
  | none => Except.ok true
  | some s =>
    if s = "b" ∨ s = "bright" then Except.ok false
    else if s = "d" ∨ s = "dark" then Except.ok true
    else Except.error 1

/-- Startup up to the initial `choose_windows` call
(`src/src/main.rs:180-198`): on a bad argument the program exits with
status 1 before any window exists; otherwise it creates the initial window
set for the parsed mode. -/
def startup (arg : Option String) (available : List Nat)
    (primary : Option Nat) : Except Nat (Bool × List Nat) :=
  match parse_mode arg with
  | Except.error code => Except.error code
  | Except.ok dark => Except.ok (dark, choose_windows available primary dark)

end Blank

/-! ## Theorems -/

namespace Blank

/-- C4: `increase` at 6600 returns false and leaves the temperature
unchanged; `decrease` at 1500 returns false and leaves it unchanged; at
every other temperature in `[1500, 6600]`, `increase` adds exactly 100,
`decrease` subtracts exactly 100, and each returns true. -/
theorem increase_decrease_bounds (c : Color)
    (hlo : 1500 ≤ c.temperature) (hhi : c.temperature ≤ 6600) :
    (c.temperature = 6600 → c.increase = (c, false)) ∧
    (c.temperature = 1500 → c.decrease = (c, false)) ∧
    (c.temperature ≠ 6600 → c.temperature ≠ 1500 →
      c.increase = ({ c with temperature := c.temperature + 100 }, true) ∧
      c.decrease = ({ c with temperature := c.temperature - 100 }, true)) := by
  refine ⟨?_, ?_, ?_⟩
  · intro h
    simp [Color.increase, h]
  · intro h
    simp [Color.decrease, h]
  · intro h6 h1
    constructor
    · simp [Color.increase, lt_of_le_of_ne hhi h6]
    · simp [Color.decrease, lt_of_le_of_ne hlo (Ne.symm h1)]

/-- Witness for `increase_decrease_bounds` at temperature 2000. -/
theorem increase_decrease_bounds_witness :
    1500 ≤ (Color.mk 2000 false).temperature ∧
    (Color.mk 2000 false).temperature ≤ 6600 ∧
    ((Color.mk 2000 false).temperature ≠ 6600 →
      (Color.mk 2000 false).temperature ≠ 1500 →
      (Color.mk 2000 false).increase = (Color.mk 2100 false, true) ∧
      (Color.mk 2000 false).decrease = (Color.mk 1900 false, true)) :=
  ⟨by decide, by decide,
    (increase_decrease_bounds (Color.mk 2000 false) (by decide) (by decide)).2.2⟩

/-- C5: for every temperature `t` in `[1500, 6600]` in steps of 100 with
`t < 6600`, `increase` followed by `decrease` restores `t`; symmetrically,
for `t > 1500`, `decrease` followed by `increase` restores `t`. -/
theorem increase_decrease_roundtrip (c : Color)
    (hlo : 1500 ≤ c.temperature) (hhi : c.temperature ≤ 6600)
    (hstep : c.temperature % 100 = 0) :
    (c.temperature < 6600 → (c.increase.1.decrease).1 = c) ∧
    (1500 < c.temperature → (c.decrease.1.increase).1 = c) := by
  constructor
  · intro h
    simp only [Color.increase, if_pos h, Color.decrease]
    have : c.temperature + 100 > 1500 := by omega
    simp [this]
  · intro h
    simp only [Color.decrease, if_pos h, Color.increase]
    have : c.temperature - 100 < 6600 := by omega
    simp only [if_pos this]
    have : c.temperature - 100 + 100 = c.temperature := by omega
    simp [this]

/-- Witness for `increase_decrease_roundtrip` at temperature 5500. -/
theorem increase_decrease_roundtrip_witness :
    ((Color.mk 5500 true).temperature < 6600 →
      ((Color.mk 5500 true).increase.1.decrease).1 = Color.mk 5500 true) ∧
    (1500 < (Color.mk 5500 true).temperature →
      ((Color.mk 5500 true).decrease.1.increase).1 = Color.mk 5500 true) :=
  increase_decrease_roundtrip (Color.mk 5500 true) (by decide) (by decide)
    (by decide)

/-- C9: `Color::new` initialises the temperature to exactly 5500 Kelvin in
both dark and bright mode. -/
theorem color_new_temperature (dark : Bool) :
    (Color.new dark).temperature = 5500 ∧ (Color.new dark).dark = dark := by
  simp [Color.new]

/-- C10: `increase` and `decrease` never change the dark-mode flag, and
`toggle` never changes the stored temperature. -/
theorem color_frame_conditions (c : Color) :
    c.increase.1.dark = c.dark ∧ c.decrease.1.dark = c.dark ∧
    c.toggle.temperature = c.temperature := by
  refine ⟨?_, ?_, ?_⟩
  · unfold Color.increase
    split <;> rfl
  · unfold Color.decrease
    split <;> rfl
  · rfl

/-- Helper: `position` finds nothing iff no element satisfies the
predicate. -/
theorem position_eq_none {α : Type _} (p : α → Bool) (l : List α) :
    position p l = none ↔ ∀ x ∈ l, p x = false := by
  induction l with
  | nil => simp [position]
  | cons x xs ih =>
    by_cases h : p x <;> simp [position, h, ih]

/-- Helper: an index returned by `position` is in bounds and points at an
element satisfying the predicate. -/
theorem position_spec {α : Type _} (p : α → Bool) (l : List α) (i : Nat)
    (h : position p l = some i) :
    ∃ hi : i < l.length, p (l.get ⟨i, hi⟩) = true := by
  induction l generalizing i with
  | nil => simp [position] at h
  | cons x xs ih =>
    by_cases hx : p x
    · simp only [position, if_pos hx, Option.some_inj] at h
      subst h
      exact ⟨Nat.succ_pos _, by simpa using hx⟩
    · simp only [position, if_neg hx, Option.map_eq_some'] at h
      obtain ⟨j, hj, rfl⟩ := h
      obtain ⟨hlt, hp⟩ := ih j hj
      exact ⟨Nat.succ_lt_succ hlt, by simpa using hp⟩

/-- Helper: `position` finds an index when some element satisfies the
predicate. -/
theorem position_isSome_of_mem {α : Type _} (p : α → Bool) (l : List α)
    (x : α) (hx : x ∈ l) (hp : p x = true) :
    ∃ i, position p l = some i := by
  cases hpos : position p l with
  | some i => exact ⟨i, rfl⟩
  | none =>
    have := (position_eq_none p l).1 hpos x hx
    rw [hp] at this
    exact absurd this (by simp)

/-- Helper: swapping two elements keeps the length. -/
theorem listSwap_length {α : Type _} (l : List α) (i j : Nat) :
    (listSwap l i j).length = l.length := by
  unfold listSwap
  split <;> simp

/-- Helper: elementwise description of an in-bounds swap. -/
theorem listSwap_getElem? {α : Type _} (l : List α) (i j k : Nat)
    (hi : i < l.length) (hj : j < l.length) :
    (listSwap l i j)[k]? =
      if j = k then some (l.get ⟨i, hi⟩)
      else if i = k then some (l.get ⟨j, hj⟩)
      else l[k]? := by
  unfold listSwap
  rw [dif_pos ⟨hi, hj⟩, List.getElem?_set, List.getElem?_set]
  simp [List.length_set, hi, hj]

/-- C2: for a monitor list as returned by `list_monitors` (primary monitor
ordered last): `choose_windows` with `dark = true` builds one window per
monitor; with `dark = false` and exactly one monitor it builds one window;
with `dark = false` and at least two monitors it builds one window fewer
than there are monitors, and the primary monitor gets none. -/
theorem choose_windows_spec (available : List Nat) (primary : Nat)
    (hmem : primary ∈ available) (hnd : available.Nodup) :
    (list_monitors available (some primary)).length = available.length ∧
    (list_monitors available (some primary)).getLast? = some primary ∧
    choose_windows available (some primary) true
      = list_monitors available (some primary) ∧
    (available.length = 1 →
      (choose_windows available (some primary) false).length = 1) ∧
    (2 ≤ available.length →
      (choose_windows available (some primary) false).length
          = available.length - 1 ∧
      primary ∉ choose_windows available (some primary) false) := by
  obtain ⟨i, hpos⟩ := position_isSome_of_mem (fun m => m == primary)
    available primary hmem (by simp)
  obtain ⟨hi, hpi⟩ := position_spec _ _ _ hpos
  have hpi2 : available[i] = primary := by
    simpa [List.get_eq_getElem] using hpi
  have hlen0 : 0 < available.length :=
    List.length_pos.mpr (List.ne_nil_of_mem hmem)
  have hn1 : available.length - 1 < available.length := by omega
  have hms : list_monitors available (some primary)
      = listSwap available i (available.length - 1) := by
    simp [list_monitors, hpos]
  have hlen : (list_monitors available (some primary)).length
      = available.length := by
    rw [hms, listSwap_length]
  have hlast : (list_monitors available (some primary))[available.length - 1]?
      = some primary := by
    rw [hms, listSwap_getElem? available i (available.length - 1)
      (available.length - 1) hi hn1]
    simp [List.get_eq_getElem, hpi2]
  refine ⟨hlen, ?_, ?_, ?_, ?_⟩
  · rw [List.getLast?_eq_getElem?, hlen, hlast]
  · simp [choose_windows, List.take_length]
  · intro h1
    simp [choose_windows, List.length_take, hlen, h1]
  · intro h2
    have hnotlt : ¬ (list_monitors available (some primary)).length < 2 := by
      rw [hlen]; omega
    have hcw : choose_windows available (some primary) false
        = (list_monitors available (some primary)).take
            ((list_monitors available (some primary)).length - 1) := by
      simp [choose_windows, hnotlt]
    constructor
    · rw [hcw, List.length_take, hlen]
      omega
    · rw [hcw]
      intro hmemtake
      rw [List.mem_take_iff_getElem] at hmemtake
      obtain ⟨k, hk, hke⟩ := hmemtake
      have hkn1 : k < available.length - 1 := by
        rw [hlen] at hk
        omega
      have hkb : k < (list_monitors available (some primary)).length := by
        rw [hlen]; omega
      have hopt : (list_monitors available (some primary))[k]?
          = some primary := by
        rw [List.getElem?_eq_getElem hkb, hke]
      rw [hms, listSwap_getElem? available i (available.length - 1) k hi hn1,
        if_neg (by omega : ¬ available.length - 1 = k)] at hopt
      by_cases hik : i = k
      · rw [if_pos hik] at hopt
        have hlast_eq : available[available.length - 1] = primary := by
          simpa [List.get_eq_getElem] using Option.some_inj.mp hopt
        have : available.length - 1 = i :=
          hnd.getElem_inj_iff.mp (hlast_eq.trans hpi2.symm)
        omega
      · rw [if_neg hik] at hopt
        have hkb2 : k < available.length := by omega
        rw [List.getElem?_eq_getElem hkb2] at hopt
        have hk_eq : available[k] = primary := Option.some_inj.mp hopt
        exact hik (hnd.getElem_inj_iff.mp (hpi2.trans hk_eq.symm))

/-- Witness for `choose_windows_spec`: three monitors `[0, 1, 2]` with
primary `2`; bright mode builds two windows and the primary is skipped. -/
theorem choose_windows_spec_witness :
    (choose_windows [0, 1, 2] (some 2) false).length
        = ([0, 1, 2] : List Nat).length - 1 ∧
    2 ∉ choose_windows [0, 1, 2] (some 2) false :=
  (choose_windows_spec [0, 1, 2] 2 (by decide) (by decide)).2.2.2.2 (by decide)

/-- Helper: the `add_window` search predicate holds for a monitor iff no
open window is currently on it. -/
theorem add_window_pred_iff (ws : List MWindow) (m : Nat) :
    ((ws.filterMap MWindow.current_monitor).all (fun opn => m != opn) = true)
      ↔ ∀ w ∈ ws, w.current_monitor ≠ some m := by
  simp only [List.all_eq_true, List.mem_filterMap, bne_iff_ne, ne_eq]
  constructor
  · intro h w hw hcm
    exact h m ⟨w, hw, hcm⟩ rfl
  · rintro h x ⟨w, hw, hcm⟩ rfl
    exact h w hw hcm

/-- C3: `add_window` returns none exactly when every monitor is already
covered by some open window; otherwise it returns a window built for the
first monitor in monitor-list order that no open window covers. -/
theorem add_window_spec (available : List Nat) (primary : Option Nat)
    (ws : List MWindow) :
    (add_window available primary ws = none ↔
      ∀ m ∈ list_monitors available primary,
        ∃ w ∈ ws, w.current_monitor = some m) ∧
    (∀ m : Nat, add_window available primary ws = some m →
      (∀ w ∈ ws, w.current_monitor ≠ some m) ∧
      ∃ pre post, list_monitors available primary = pre ++ m :: post ∧
        ∀ q ∈ pre, ∃ w ∈ ws, w.current_monitor = some q) := by
  constructor
  · rw [add_window, List.find?_eq_none]
    constructor
    · intro h m hm
      by_contra hno
      push_neg at hno
      exact h m hm ((add_window_pred_iff ws m).mpr hno)
    · intro h x hx
      rw [add_window_pred_iff]
      push_neg
      exact h x hx
  · intro m hfind
    rw [add_window, List.find?_eq_some] at hfind
    obtain ⟨hpm, pre, post, heq, hpre⟩ := hfind
    refine ⟨(add_window_pred_iff ws m).mp hpm, pre, post, heq, ?_⟩
    intro q hq
    have hq1 : ¬ ((ws.filterMap MWindow.current_monitor).all
        (fun opn => q != opn) = true) := by
      simpa using hpre q hq
    rw [add_window_pred_iff] at hq1
    push_neg at hq1
    exact hq1

/-- Witness for `add_window_spec`: monitors `[0, 1]`, one open window on
monitor 0; `add_window` picks monitor 1, which no open window covers. -/
theorem add_window_spec_witness :
    (∀ w ∈ [MWindow.mk 10 (some 0)], w.current_monitor ≠ some 1) ∧
    ∃ pre post, list_monitors [0, 1] none = pre ++ 1 :: post ∧
      ∀ q ∈ pre, ∃ w ∈ [MWindow.mk 10 (some 0)], w.current_monitor = some q :=
  (add_window_spec [0, 1] none [MWindow.mk 10 (some 0)]).2 1 (by decide)

/-- Helper: a dispatch step that fires the add-window attempt leaves the
`released_a` guard cleared. -/
theorem keyStep_attempt_clears_guard (g : Guards) (e : KeyEvent)
    (h : (keyStep g e).2 = true) : (keyStep g e).1.released_a = false := by
  rcases e with ⟨key, pressed, logo⟩
  cases key <;> cases pressed <;>
    simp only [keyStep] at h ⊢ <;>
    first
      | (split at h <;> simp_all)
      | simp_all

/-- Helper: with the `released_a` guard cleared, any event other than an
`A` release neither attempts an add-window action nor restores the
guard. -/
theorem keyStep_guard_cleared (g : Guards) (e : KeyEvent)
    (hg : g.released_a = false)
    (hne : ¬(e.key = KeyCode.A ∧ e.pressed = false)) :
    (keyStep g e).1.released_a = false ∧ (keyStep g e).2 = false := by
  rcases e with ⟨key, pressed, logo⟩
  cases key <;> cases pressed <;>
    simp only [keyStep] <;>
    first
      | (split <;> simp_all)
      | simp_all

/-- C7: after a firing `A`-pressed event the `released_a` guard is cleared,
and as long as no `A`-released event arrives every further `A`-pressed
event (with any modifiers) attempts no add-window action; hence any event
stretch without an `A` release fires at most one add-window attempt. -/
theorem held_key_single_attempt (es : List KeyEvent)
    (hnorel : ∀ e ∈ es, ¬(e.key = KeyCode.A ∧ e.pressed = false)) :
    (∀ g : Guards, g.released_a = false → (runKeys g es).2 = 0) ∧
    (∀ g : Guards, (runKeys g es).2 ≤ 1) := by
  induction es with
  | nil => simp [runKeys]
  | cons e es ih =>
    have hne : ¬(e.key = KeyCode.A ∧ e.pressed = false) := hnorel e (by simp)
    have ih := ih (fun x hx => hnorel x (by simp [hx]))
    constructor
    · intro g hg
      obtain ⟨h1, h2⟩ := keyStep_guard_cleared g e hg hne
      simp [runKeys, h2, ih.1 _ h1]
    · intro g
      by_cases ha : (keyStep g e).2 = true
      · have hclear := keyStep_attempt_clears_guard g e ha
        simp [runKeys, ha, ih.1 _ hclear]
      · have ha2 : (keyStep g e).2 = false := by simpa using ha
        simp only [runKeys, ha2]
        simpa using ih.2 (keyStep g e).1

/-- C6: `remove` deletes the (unique) window whose identifier matches and
returns true when such a window is present; when no window in the list has
that identifier it returns false and the list is left unchanged. -/
theorem remove_spec (windows : List MWindow) (ident : Nat)
    (hnd : (windows.map MWindow.id).Nodup) :
    ((∀ w ∈ windows, w.id ≠ ident) →
      remove windows ident = (windows, false)) ∧
    ((∃ w ∈ windows, w.id = ident) →
      (remove windows ident).2 = true ∧
      (remove windows ident).1.length + 1 = windows.length ∧
      ∀ x : MWindow, x ∈ (remove windows ident).1 ↔
        (x ∈ windows ∧ x.id ≠ ident)) := by
  constructor
  · intro h
    have hpos : position (fun w => w.id == ident) windows = none := by
      rw [position_eq_none]
      intro w hw
      simpa using h w hw
    simp [remove, hpos]
  · rintro ⟨w, hw, hwid⟩
    obtain ⟨i, hpos⟩ :=
      position_isSome_of_mem (fun w => w.id == ident) windows w hw
        (by simp [hwid])
    obtain ⟨hi, hp⟩ := position_spec _ _ _ hpos
    have hid_i : windows[i].id = ident := by
      simpa [List.get_eq_getElem] using hp
    have hrem : remove windows ident = (swapRemove windows i, true) := by
      simp [remove, hpos]
    have hinj : ∀ a b : Nat, ∀ ha : a < windows.length,
        ∀ hb : b < windows.length, windows[a].id = windows[b].id → a = b := by
      intro a b ha hb hab
      have ha2 : a < (windows.map MWindow.id).length := by simpa using ha
      have hb2 : b < (windows.map MWindow.id).length := by simpa using hb
      have h1 : (windows.map MWindow.id)[a] = (windows.map MWindow.id)[b] := by
        simp only [List.getElem_map]
        exact hab
      exact hnd.getElem_inj_iff.mp h1
    have hn0 : 0 < windows.length := by omega
    have hn1 : windows.length - 1 < windows.length := by omega
    have hsw : swapRemove windows i
        = (windows.set i
            (windows.get ⟨windows.length - 1, hn1⟩)).dropLast := by
      rw [swapRemove, dif_pos hi]
    have hlen : (swapRemove windows i).length = windows.length - 1 := by
      rw [hsw, List.length_dropLast, List.length_set]
    refine ⟨by rw [hrem], by rw [hrem]; rw [hlen]; omega, ?_⟩
    intro x
    rw [hrem]
    constructor
    · intro hx
      rw [hsw] at hx
      obtain ⟨k, hk, hke⟩ := List.mem_iff_getElem.mp hx
      have hkn : k < windows.length - 1 := by
        simpa [List.length_dropLast, List.length_set] using hk
      rw [List.getElem_dropLast, List.getElem_set] at hke
      by_cases hik : i = k
      · rw [if_pos hik] at hke
        have hx_eq : windows[windows.length - 1] = x := by
          simpa [List.get_eq_getElem] using hke
        constructor
        · exact hx_eq ▸ List.getElem_mem hn1
        · intro hxid
          have : windows[windows.length - 1].id = windows[i].id := by
            rw [hx_eq, hxid, hid_i]
          have := hinj _ _ hn1 hi this
          omega
      · rw [if_neg hik] at hke
        have hkb : k < windows.length := by omega
        constructor
        · exact hke ▸ List.getElem_mem hkb
        · intro hxid
          have : windows[k].id = windows[i].id := by
            rw [hke, hxid, hid_i]
          exact hik (hinj _ _ hkb hi this).symm
    · rintro ⟨hxmem, hxid⟩
      obtain ⟨j, hj, hje⟩ := List.mem_iff_getElem.mp hxmem
      have hji : j ≠ i := by
        intro h
        apply hxid
        rw [← hje]
        subst h
        exact hid_i
      rw [hsw, List.mem_iff_getElem]
      by_cases hjn : j < windows.length - 1
      · refine ⟨j, by simp [List.length_dropLast, List.length_set]; omega, ?_⟩
        rw [List.getElem_dropLast, List.getElem_set,
          if_neg (fun h => hji h.symm), hje]
      · have hj_eq : j = windows.length - 1 := by omega
        subst hj_eq
        have hin : i < windows.length - 1 := by omega
        refine ⟨i, by simp [List.length_dropLast, List.length_set]; omega, ?_⟩
        rw [List.getElem_dropLast, List.getElem_set, if_pos rfl,
          List.get_eq_getElem, ← hje]

/-- Witness for `remove_spec`: removing identifier 1 from two windows with
identifiers 1 and 2 succeeds, shrinks the list, and keeps window 2. -/
theorem remove_spec_witness :
    (remove [MWindow.mk 1 none, MWindow.mk 2 none] 1).2 = true ∧
    (remove [MWindow.mk 1 none, MWindow.mk 2 none] 1).1.length + 1
      = ([MWindow.mk 1 none, MWindow.mk 2 none] : List MWindow).length ∧
    ∀ x : MWindow, x ∈ (remove [MWindow.mk 1 none, MWindow.mk 2 none] 1).1 ↔
      (x ∈ [MWindow.mk 1 none, MWindow.mk 2 none] ∧ x.id ≠ 1) :=
  (remove_spec [MWindow.mk 1 none, MWindow.mk 2 none] 1 (by decide)).2
    ⟨MWindow.mk 1 none, by decide, by decide⟩

/-- C1 counterexample: at a poll tick with exit requested, the graceful
flag set and a window present in the set (window set not empty), the code
clears the window set; it does not abort, contradicting the claim that a
reappeared window makes the process panic. -/
theorem exit_check_window_present_counterexample :
    exitCheck true true false true = ExitCheckResult.clearWindows ∧
    exitCheck true true false true ≠ ExitCheckResult.forceAbort := by
  decide

/-- C1 (amended): once exit has been requested, on the next poll tick the
loop terminates normally if the window set is empty and the graceful flag
is set; with the set empty but the flag clear, the process aborts loudly;
with a window present in the set at that tick, the window set is cleared
and no abort occurs. -/
theorem exit_check_spec (graceful : Bool) :
    exitCheck true true true true = ExitCheckResult.exitGracefully ∧
    exitCheck true true true false = ExitCheckResult.forceAbort ∧
    exitCheck true true false graceful = ExitCheckResult.clearWindows := by
  cases graceful <;> decide

/-- Witness for `held_key_single_attempt`: holding Logo+A (three pressed
events, no release) fires at most one add-window attempt. -/
theorem held_key_single_attempt_witness :
    (runKeys (Guards.mk true true true)
      [KeyEvent.mk KeyCode.A true true, KeyEvent.mk KeyCode.A true true,
        KeyEvent.mk KeyCode.A true true]).2 ≤ 1 :=
  (held_key_single_attempt
      [KeyEvent.mk KeyCode.A true true, KeyEvent.mk KeyCode.A true true,
        KeyEvent.mk KeyCode.A true true]
      (by decide)).2 (Guards.mk true true true)

/-- C8: first argument `b` or `bright` starts bright (non-dark) mode; `d`,
`dark` or no argument starts dark mode; any other first argument makes the
program exit with status 1 before any window is created. -/
theorem startup_argument_spec (available : List Nat) (primary : Option Nat) :
    startup (some "b") available primary
      = Except.ok (false, choose_windows available primary false) ∧
    startup (some "bright") available primary
      = Except.ok (false, choose_windows available primary false) ∧
    startup (some "d") available primary
      = Except.ok (true, choose_windows available primary true) ∧
    startup (some "dark") available primary
      = Except.ok (true, choose_windows available primary true) ∧
    startup none available primary
      = Except.ok (true, choose_windows available primary true) ∧
    (∀ s : String, s ≠ "b" → s ≠ "bright" → s ≠ "d" → s ≠ "dark" →
      startup (some s) available primary = Except.error 1) := by
  refine ⟨?_, ?_, ?_, ?_, ?_, ?_⟩
  · simp [startup, parse_mode]
  · simp [startup, parse_mode]
  · simp [startup, parse_mode]
  · simp [startup, parse_mode]
  · simp [startup, parse_mode]
  · intro s h1 h2 h3 h4
    simp [startup, parse_mode, h1, h2, h3, h4]

/-- Witness for `startup_argument_spec`: the argument `x` is rejected with
exit status 1 and no windows. -/
theorem startup_argument_spec_witness :
    startup (some "x") [0] none = Except.error 1 :=
  (startup_argument_spec [0] none).2.2.2.2.2 "x" (by decide) (by decide)
    (by decide) (by decide)

end Blank
